import Mathlib

/-!
Verification of the SLMGen training-progress tracking core
(`src/libslmgen/core/training_tracker.py` and the SSE feed loop in
`src/libslmgen/app/routers/training.py`) against its natural-language
specification.

Shallow embedding conventions:
* wall-clock instants (`datetime`) are rationals counting seconds; a
  `timedelta` of h hours is `h * 3600` seconds;
* Python `float` metric values (loss, learning rate, ...) are rationals;
* Python `int` fields (`step`, `epoch`, `total_steps`, `total_epochs`)
  are `Int`;
* the registry's insertion-ordered dict `self._sessions` is an
  association list with unique keys; `dict.get` is `List.lookup`,
  `d[k] = v` is `dictInsert` (replace in place, else append);
* `datetime.now(timezone.utc)` is threaded as an explicit `now`
  argument into every operation that reads the clock;
* methods that mutate a session in place are modelled by rebinding the
  session id to the updated record.
-/

/-- Status of a training session (`TrainingStatus` in the source). -/
inductive TrainingStatus where
  | PENDING
  | RUNNING
  | COMPLETED
  | FAILED
deriving DecidableEq

/-- The `.value` payload of the Python `str`-enum. -/
def TrainingStatus.value : TrainingStatus → String
  | .PENDING => "pending"
  | .RUNNING => "running"
  | .COMPLETED => "completed"
  | .FAILED => "failed"

/-- A single training event (`TrainingEvent` in the source).
`timestamp` is assigned by the registry at receipt time. -/
structure TrainingEvent where
  step : Int
  loss : ℚ
  epoch : Int
  learning_rate : ℚ
  timestamp : ℚ
  grad_norm : Option ℚ := none
  tokens_per_second : Option ℚ := none
  gpu_memory_used : Option ℚ := none
deriving DecidableEq

/-- The dictionary produced by `TrainingEvent.to_dict`.  The source
serialises `timestamp` via `isoformat()`; the ISO string is in
order-preserving bijection with the instant, so we keep the rational. -/
structure EventDict where
  step : Int
  loss : ℚ
  epoch : Int
  learning_rate : ℚ
  timestamp : ℚ
  grad_norm : Option ℚ
  tokens_per_second : Option ℚ
  gpu_memory_used : Option ℚ
deriving DecidableEq

/-- `TrainingEvent.to_dict` from the source. -/
def TrainingEvent.to_dict (e : TrainingEvent) : EventDict :=
  { step := e.step
    loss := e.loss
    epoch := e.epoch
    learning_rate := e.learning_rate
    timestamp := e.timestamp
    grad_norm := e.grad_norm
    tokens_per_second := e.tokens_per_second
    gpu_memory_used := e.gpu_memory_used }

/-- A training session (`TrainingSession` in the source).
`last_activity` models the private `_last_activity` field. -/
structure TrainingSession where
  session_id : String
  job_id : String
  model_id : String
  total_steps : Int
  total_epochs : Int
  created_at : ℚ
  started_at : Option ℚ := none
  completed_at : Option ℚ := none
  status : TrainingStatus := .PENDING
  events : List TrainingEvent := []
  error_message : Option String := none
  last_activity : ℚ
deriving DecidableEq

/-- `TrainingSession.add_event`: append the event, stamp
`_last_activity = now`, and on the first event flip Pending to Running
and record `started_at` from the event's timestamp. -/
def TrainingSession.add_event (s : TrainingSession) (e : TrainingEvent) (now : ℚ) :
    TrainingSession :=
  let s1 := { s with events := s.events ++ [e], last_activity := now }
  if s1.status = .PENDING then
    { s1 with status := .RUNNING, started_at := some e.timestamp }
  else
    s1

/-- `TrainingSession.complete`: unconditionally set Completed and stamp
`completed_at` and `_last_activity` with now. -/
def TrainingSession.complete (s : TrainingSession) (now : ℚ) : TrainingSession :=
  { s with status := .COMPLETED, completed_at := some now, last_activity := now }

/-- `TrainingSession.fail`: unconditionally set Failed, store the error
message, and stamp `completed_at` and `_last_activity` with now. -/
def TrainingSession.fail (s : TrainingSession) (error : String) (now : ℚ) :
    TrainingSession :=
  { s with status := .FAILED, error_message := some error,
           completed_at := some now, last_activity := now }

/-- `TrainingSession.is_expired`: `now > _last_activity + ttl_hours`,
with the source's default of 2 hours. -/
def TrainingSession.is_expired (s : TrainingSession) (now : ℚ) (ttl_hours : Int := 2) :
    Bool :=
  decide (s.last_activity + (ttl_hours : ℚ) * 3600 < now)

/-- `TrainingSession.current_step`: step of the last event, 0 if none. -/
def TrainingSession.current_step (s : TrainingSession) : Int :=
  match s.events.getLast? with
  | none => 0
  | some e => e.step

/-- `TrainingSession.current_epoch`: epoch of the last event, 0 if none. -/
def TrainingSession.current_epoch (s : TrainingSession) : Int :=
  match s.events.getLast? with
  | none => 0
  | some e => e.epoch

/-- `TrainingSession.latest_loss`: loss of the last event, absent if none. -/
def TrainingSession.latest_loss (s : TrainingSession) : Option ℚ :=
  match s.events.getLast? with
  | none => none
  | some e => some e.loss

/-- `TrainingSession.progress_percent`: 0 when `total_steps` is 0, else
`min(100, current_step / total_steps * 100)`. -/
def TrainingSession.progress_percent (s : TrainingSession) : ℚ :=
  if s.total_steps = 0 then 0
  else min 100 (((s.current_step : ℚ) / (s.total_steps : ℚ)) * 100)

/-- The sampling window `self.events[-min(20, len(self.events)):]` used
by ETA estimation: the last `min 20 N` events. -/
def etaWindow (s : TrainingSession) : List TrainingEvent :=
  s.events.drop (s.events.length - min 20 s.events.length)

/-- `TrainingSession.estimate_eta`, in seconds.  Absent with fewer than
2 events or when the window's step span is ≤ 0; otherwise
`(total_steps - current_step) * (time span / step span)` — the source
applies no `max(0, ...)` clamp to the remaining-step count. -/
def TrainingSession.estimate_eta (s : TrainingSession) : Option ℚ :=
  if s.events.length < 2 then none
  else if (etaWindow s).length < 2 then none
  else
    match (etaWindow s).head?, (etaWindow s).getLast? with
    | some first, some last =>
      if last.step - first.step ≤ 0 then none
      else
        some (((s.total_steps - s.current_step : Int) : ℚ) *
          ((last.timestamp - first.timestamp) / ((last.step - first.step : Int) : ℚ)))
    | _, _ => none

/-- The dictionary produced by `TrainingSession.to_dict`.  The source
additionally carries `eta_formatted` (a display-string rendering of
`eta_seconds`) and rounds `progress_percent` to two decimals for
display; both are float-formatting concerns omitted here. -/
structure StatusDict where
  session_id : String
  job_id : String
  model_id : String
  status : String
  total_steps : Int
  total_epochs : Int
  current_step : Int
  current_epoch : Int
  progress_percent : ℚ
  latest_loss : Option ℚ
  eta_seconds : Option ℚ
  created_at : ℚ
  started_at : Option ℚ
  completed_at : Option ℚ
  error_message : Option String
  event_count : Nat
deriving DecidableEq

/-- `TrainingSession.to_dict`.  The source computes
`eta.total_seconds() if eta else None`: a zero `timedelta` is falsy in
Python, so an ETA of exactly 0 seconds is reported as absent. -/
def TrainingSession.to_dict (s : TrainingSession) : StatusDict :=
  let eta := s.estimate_eta
  { session_id := s.session_id
    job_id := s.job_id
    model_id := s.model_id
    status := s.status.value
    total_steps := s.total_steps
    total_epochs := s.total_epochs
    current_step := s.current_step
    current_epoch := s.current_epoch
    progress_percent := s.progress_percent
    latest_loss := s.latest_loss
    eta_seconds := match eta with
      | none => none
      | some q => if q = 0 then none else some q
    created_at := s.created_at
    started_at := s.started_at
    completed_at := s.completed_at
    error_message := s.error_message
    event_count := s.events.length }

/-- Python dict assignment `d[k] = v` on an insertion-ordered
association list with unique keys: replace the existing binding in
place, otherwise append at the end. -/
def dictInsert (k : String) (v : TrainingSession) :
    List (String × TrainingSession) → List (String × TrainingSession)
  | [] => [(k, v)]
  | p :: rest => if p.1 == k then (k, v) :: rest else p :: dictInsert k v rest

/-- The `TrainingTracker` registry: its `_sessions` dict.  The
source's singleton construction and `threading.Lock` serialise the
operations; each operation below models one lock-protected critical
section. -/
structure TrainingTracker where
  sessions : List (String × TrainingSession)
deriving DecidableEq

/-- `self._sessions.get(session_id)`. -/
def TrainingTracker.lookup (t : TrainingTracker) (session_id : String) :
    Option TrainingSession :=
  List.lookup session_id t.sessions

/-- `TrainingTracker._cleanup_expired`: hard-delete every expired
session (the source collects the expired ids and `del`s each, which is
an order-preserving filter); it raises nothing. -/
def TrainingTracker.cleanup_expired (t : TrainingTracker) (now : ℚ) : TrainingTracker :=
  { sessions := t.sessions.filter (fun p => !(p.2.is_expired now)) }

/-- `TrainingTracker.start_session`: sweep expired sessions first, then
unconditionally bind the id to a fresh Pending session (silent
overwrite of any existing binding; no error path exists). -/
def TrainingTracker.start_session (t : TrainingTracker) (now : ℚ)
    (session_id job_id model_id : String) (total_steps total_epochs : Int) :
    TrainingSession × TrainingTracker :=
  let t1 := t.cleanup_expired now
  let session : TrainingSession :=
    { session_id := session_id
      job_id := job_id
      model_id := model_id
      total_steps := total_steps
      total_epochs := total_epochs
      created_at := now
      last_activity := now }
  (session, { sessions := dictInsert session_id session t1.sessions })

/-- `TrainingTracker.add_event`: build the event (stamping its
timestamp with now) and append it to the session; false without any
state change when the id is unknown. -/
def TrainingTracker.add_event (t : TrainingTracker) (now : ℚ) (session_id : String)
    (step : Int) (loss : ℚ) (epoch : Int) (learning_rate : ℚ)
    (grad_norm : Option ℚ := none) (tokens_per_second : Option ℚ := none)
    (gpu_memory_used : Option ℚ := none) : Bool × TrainingTracker :=
  match t.lookup session_id with
  | none => (false, t)
  | some s =>
    let event : TrainingEvent :=
      { step := step
        loss := loss
        epoch := epoch
        learning_rate := learning_rate
        timestamp := now
        grad_norm := grad_norm
        tokens_per_second := tokens_per_second
        gpu_memory_used := gpu_memory_used }
    (true, { sessions := dictInsert session_id (s.add_event event now) t.sessions })

/-- `TrainingTracker.complete_session`: false without state change when
the id is unknown. -/
def TrainingTracker.complete_session (t : TrainingTracker) (now : ℚ)
    (session_id : String) : Bool × TrainingTracker :=
  match t.lookup session_id with
  | none => (false, t)
  | some s => (true, { sessions := dictInsert session_id (s.complete now) t.sessions })

/-- `TrainingTracker.fail_session`: false without state change when the
id is unknown. -/
def TrainingTracker.fail_session (t : TrainingTracker) (now : ℚ)
    (session_id : String) (error : String) : Bool × TrainingTracker :=
  match t.lookup session_id with
  | none => (false, t)
  | some s => (true, { sessions := dictInsert session_id (s.fail error now) t.sessions })

/-- `TrainingTracker.get_events`: empty list when the id is unknown;
otherwise the session's events in stored (arrival) order, restricted to
`step > since_step` when a cursor is given.  A pure read: the method
body never writes a field. -/
def TrainingTracker.get_events (t : TrainingTracker) (session_id : String)
    (since_step : Option Int := none) : List EventDict :=
  match t.lookup session_id with
  | none => []
  | some s =>
    let events := match since_step with
      | none => s.events
      | some k => s.events.filter (fun e => decide (k < e.step))
    events.map TrainingEvent.to_dict

/-- `TrainingTracker.get_latest`: last event's dict, absent when the
session is unknown or has no events.  A pure read. -/
def TrainingTracker.get_latest (t : TrainingTracker) (session_id : String) :
    Option EventDict :=
  match t.lookup session_id with
  | none => none
  | some s => s.events.getLast?.map TrainingEvent.to_dict

/-- `TrainingTracker.get_status`: snapshot dict of the session, absent
when the id is unknown.  A pure read. -/
def TrainingTracker.get_status (t : TrainingTracker) (session_id : String) :
    Option StatusDict :=
  match t.lookup session_id with
  | none => none
  | some s => some s.to_dict

/-- `TrainingTracker.list_sessions`: sweep expired sessions, then
snapshot every surviving session. -/
def TrainingTracker.list_sessions (t : TrainingTracker) (now : ℚ) :
    List StatusDict × TrainingTracker :=
  let t1 := t.cleanup_expired now
  (t1.sessions.map (fun p => p.2.to_dict), t1)

/-- One SSE message emitted by the stream endpoint's `event_generator`:
the `event: error` line on session disappearance, a `data:` status
snapshot, or the final `event: complete` snapshot. -/
inductive SSEMessage where
  | expired_error : SSEMessage
  | data_note : StatusDict → SSEMessage
  | complete_note : StatusDict → SSEMessage
deriving DecidableEq

/-- The `event_generator` loop of the `/training/{id}/stream` endpoint.
Each list element is the registry state observed by one poll iteration
(the `await asyncio.sleep(interval)` suspension separates consecutive
elements; an exhausted list models client disconnect).  Per iteration:
fetch the snapshot (error + stop if gone); fetch events newer than the
cursor, and if any exist advance the cursor and emit a `data` snapshot;
then, if the snapshot's status string is terminal, emit one `complete`
snapshot and stop. -/
def event_generator (session_id : String) : Int → List TrainingTracker → List SSEMessage
  | _, [] => []
  | last_step, t :: rest =>
    match t.get_status session_id with
    | none => [SSEMessage.expired_error]
    | some status =>
      (if (t.get_events session_id (some last_step)).isEmpty then []
       else [SSEMessage.data_note status]) ++
      (if status.status == "completed" || status.status == "failed" then
        [SSEMessage.complete_note status]
      else
        event_generator session_id
          (match (t.get_events session_id (some last_step)).getLast? with
            | some d => d.step
            | none => last_step) rest)

/-- Folding a list of (event, arrival instant) pairs into a session by
repeated `add_event`, i.e. a whole sequence of webhook deliveries. -/
def TrainingSession.add_events (s : TrainingSession)
    (ps : List (TrainingEvent × ℚ)) : TrainingSession :=
  ps.foldl (fun a p => a.add_event p.1 p.2) s

/-! ### Basic facts about the session operations -/

theorem add_event_events (s : TrainingSession) (e : TrainingEvent) (now : ℚ) :
    (s.add_event e now).events = s.events ++ [e] := by
  unfold TrainingSession.add_event
  dsimp only
  split <;> rfl

theorem add_event_status (s : TrainingSession) (e : TrainingEvent) (now : ℚ) :
    (s.add_event e now).status =
      if s.status = .PENDING then .RUNNING else s.status := by
  unfold TrainingSession.add_event
  dsimp only
  split <;> simp_all

theorem add_event_started_at (s : TrainingSession) (e : TrainingEvent) (now : ℚ) :
    (s.add_event e now).started_at =
      if s.status = .PENDING then some e.timestamp else s.started_at := by
  unfold TrainingSession.add_event
  dsimp only
  split <;> simp_all

theorem add_event_last_activity (s : TrainingSession) (e : TrainingEvent) (now : ℚ) :
    (s.add_event e now).last_activity = now := by
  unfold TrainingSession.add_event
  dsimp only
  split <;> rfl

theorem add_event_total_steps (s : TrainingSession) (e : TrainingEvent) (now : ℚ) :
    (s.add_event e now).total_steps = s.total_steps := by
  unfold TrainingSession.add_event
  dsimp only
  split <;> rfl

theorem add_event_current_step (s : TrainingSession) (e : TrainingEvent) (now : ℚ) :
    (s.add_event e now).current_step = e.step := by
  unfold TrainingSession.current_step
  rw [add_event_events]
  simp

theorem add_events_cons (s : TrainingSession) (p : TrainingEvent × ℚ)
    (ps : List (TrainingEvent × ℚ)) :
    s.add_events (p :: ps) = (s.add_event p.1 p.2).add_events ps := rfl

theorem add_events_events (s : TrainingSession) (ps : List (TrainingEvent × ℚ)) :
    (s.add_events ps).events = s.events ++ ps.map Prod.fst := by
  induction ps generalizing s with
  | nil => simp [TrainingSession.add_events]
  | cons p ps ih =>
    rw [add_events_cons, ih, add_event_events]
    simp

theorem add_events_of_running (s : TrainingSession) (ps : List (TrainingEvent × ℚ))
    (h : s.status = .RUNNING) :
    (s.add_events ps).status = .RUNNING ∧
      (s.add_events ps).started_at = s.started_at := by
  induction ps generalizing s with
  | nil => exact ⟨h, rfl⟩
  | cons p ps ih =>
    have h1 : (s.add_event p.1 p.2).status = .RUNNING := by
      rw [add_event_status, h]; simp
    have h2 := ih (s.add_event p.1 p.2) h1
    refine ⟨by rw [add_events_cons]; exact h2.1, ?_⟩
    rw [add_events_cons, h2.2, add_event_started_at, h]
    simp

/-! ### Facts about the registry's association-list dictionary -/

theorem lookup_dictInsert (k : String) (v : TrainingSession)
    (l : List (String × TrainingSession)) :
    List.lookup k (dictInsert k v l) = some v := by
  induction l with
  | nil => simp [dictInsert, List.lookup_cons]
  | cons p rest ih =>
    obtain ⟨a, b⟩ := p
    by_cases h : a = k
    · simp [dictInsert, h, List.lookup_cons]
    · have hba : (k == a) = false := beq_false_of_ne (Ne.symm h)
      simp only [dictInsert, beq_iff_eq, h, if_false]
      simpa [List.lookup_cons, hba] using ih

theorem lookup_eq_none_of_not_mem (k : String)
    (l : List (String × TrainingSession)) (h : k ∉ l.map Prod.fst) :
    List.lookup k l = none := by
  induction l with
  | nil => rfl
  | cons p rest ih =>
    obtain ⟨a, b⟩ := p
    simp only [List.map_cons, List.mem_cons, not_or] at h
    have hba : (k == a) = false := beq_false_of_ne h.1
    simp [List.lookup_cons, hba, ih h.2]

theorem lookup_filter_eq_none (k : String) (s : TrainingSession)
    (keep : String × TrainingSession → Bool) (l : List (String × TrainingSession))
    (hnd : (l.map Prod.fst).Nodup) (hl : List.lookup k l = some s)
    (hk : keep (k, s) = false) :
    List.lookup k (l.filter keep) = none := by
  induction l with
  | nil => simp [List.lookup] at hl
  | cons p rest ih =>
    obtain ⟨a, b⟩ := p
    rw [List.map_cons, List.nodup_cons] at hnd
    by_cases hak : a = k
    · subst hak
      have hb : b = s := by simpa [List.lookup_cons] using hl
      subst hb
      rw [List.filter_cons, if_neg (by simp [hk])]
      apply lookup_eq_none_of_not_mem
      intro hmem
      apply hnd.1
      rcases List.mem_map.mp hmem with ⟨q, hq, hqa⟩
      exact List.mem_map.mpr ⟨q, List.mem_of_mem_filter hq, hqa⟩
    · have hba : (k == a) = false := beq_false_of_ne (Ne.symm hak)
      have hl' : List.lookup k rest = some s := by
        simpa [List.lookup_cons, hba] using hl
      rw [List.filter_cons]
      split
      · rw [List.lookup_cons, hba]
        exact ih hnd.2 hl'
      · exact ih hnd.2 hl'

/-! ### Facts about the derived metrics -/

theorem etaWindow_length (s : TrainingSession) :
    (etaWindow s).length = min 20 s.events.length := by
  simp only [etaWindow, List.length_drop]
  omega

theorem progress_percent_le_100 (s : TrainingSession) :
    s.progress_percent ≤ 100 := by
  unfold TrainingSession.progress_percent
  split
  · norm_num
  · exact min_le_left _ _

theorem progress_percent_mono_step (s : TrainingSession) (e : TrainingEvent)
    (now : ℚ) (h0 : 0 ≤ s.total_steps) (hstep : s.current_step ≤ e.step) :
    s.progress_percent ≤ (s.add_event e now).progress_percent := by
  unfold TrainingSession.progress_percent
  rw [add_event_total_steps, add_event_current_step]
  by_cases hz : s.total_steps = 0
  · simp [hz]
  · rw [if_neg hz, if_neg hz]
    have hpos : (0 : ℚ) < (s.total_steps : ℚ) := by
      exact_mod_cast lt_of_le_of_ne h0 (Ne.symm hz)
    refine min_le_min le_rfl ?_
    refine mul_le_mul_of_nonneg_right ?_ (by norm_num)
    exact (div_le_div_iff_of_pos_right hpos).mpr (by exact_mod_cast hstep)

theorem progress_percent_mono_chain (s : TrainingSession)
    (ps : List (TrainingEvent × ℚ)) (h0 : 0 ≤ s.total_steps)
    (hc : List.Chain (· ≤ ·) s.current_step (ps.map (fun p => p.1.step))) :
    s.progress_percent ≤ (s.add_events ps).progress_percent := by
  induction ps generalizing s with
  | nil => exact le_refl _
  | cons p ps ih =>
    rw [List.map_cons, List.chain_cons] at hc
    rw [add_events_cons]
    refine le_trans (progress_percent_mono_step s p.1 p.2 h0 hc.1) (ih _ ?_ ?_)
    · rw [add_event_total_steps]; exact h0
    · rw [add_event_current_step]; exact hc.2

/-! ### Concrete fixtures used by witnesses and counterexamples -/

/-- A concrete event at step 10. -/
def evA : TrainingEvent :=
  { step := 10, loss := 1, epoch := 0, learning_rate := 0, timestamp := 1 }

/-- A concrete event at step 30, arriving second. -/
def evB : TrainingEvent :=
  { step := 30, loss := 9 / 10, epoch := 0, learning_rate := 0, timestamp := 2 }

/-- A concrete event at step 20, arriving third (out of step order). -/
def evC : TrainingEvent :=
  { step := 20, loss := 8 / 10, epoch := 1, learning_rate := 0, timestamp := 3 }

/-- A concrete Running session with events in non-sorted step order. -/
def sessR : TrainingSession :=
  { session_id := "s1", job_id := "j1", model_id := "m1", total_steps := 100,
    total_epochs := 1, created_at := 0, started_at := some 1,
    status := .RUNNING, events := [evA, evB, evC], last_activity := 3 }

/-- A concrete Pending session with no events yet. -/
def sessP : TrainingSession :=
  { session_id := "s2", job_id := "j2", model_id := "m2", total_steps := 100,
    total_epochs := 1, created_at := 0, last_activity := 0 }

/-- A registry holding `sessR` under its id. -/
def trackR : TrainingTracker := ⟨[("s1", sessR)]⟩

/-! ### The claims -/

/-- C1, counterexample to the claim as stated: start a session, fail it
(status Failed, terminal), then call complete — the registry overwrites
the terminal status with Completed, so a subsequent operation does
change a terminal status. -/
theorem status_terminal_counterexample :
    ((((TrainingTracker.mk []).start_session 0 "s1" "j1" "m1" 100 1).2.fail_session 1
        "s1" "CUDA out of memory").2.lookup "s1").map TrainingSession.status =
      some TrainingStatus.FAILED
    ∧ (((((TrainingTracker.mk []).start_session 0 "s1" "j1" "m1" 100 1).2.fail_session 1
        "s1" "CUDA out of memory").2.complete_session 2 "s1").2.lookup "s1").map
        TrainingSession.status = some TrainingStatus.COMPLETED := by
  constructor <;> rfl

/-- C1 (amended): `add_event` changes the status only from Pending to
Running — in particular it never moves a Running or terminal (Completed
or Failed) status — but `complete` and `fail` assign the status
unconditionally, so a later `complete`/`fail` call overwrites even a
terminal status. -/
theorem status_transitions (s : TrainingSession) (e : TrainingEvent)
    (now now2 now3 : ℚ) (err : String) :
    (s.add_event e now).status =
      (if s.status = .PENDING then .RUNNING else s.status)
    ∧ (s.complete now2).status = .COMPLETED
    ∧ (s.fail err now3).status = .FAILED :=
  ⟨add_event_status s e now, rfl, rfl⟩

/-- C3: on a registered session, `get_events` with no cursor returns
all stored events in exact arrival order (no sort), `get_events` with
cursor k returns exactly the arrival-ordered subsequence with
`step > k` (duplicates kept), and any sequence of `add_event` calls
appends its events in call order. -/
theorem get_events_order (t : TrainingTracker) (sid : String)
    (s : TrainingSession) (k : Int) (ps : List (TrainingEvent × ℚ))
    (hs : t.lookup sid = some s) :
    t.get_events sid none = s.events.map TrainingEvent.to_dict
    ∧ t.get_events sid (some k) =
        (s.events.filter (fun e => decide (k < e.step))).map TrainingEvent.to_dict
    ∧ (s.add_events ps).events = s.events ++ ps.map Prod.fst := by
  refine ⟨?_, ?_, add_events_events s ps⟩ <;>
    simp [TrainingTracker.get_events, hs]

/-- Witness for C3 at a concrete registry whose session stores events
with steps 10, 30, 20 in that arrival order. -/
theorem get_events_order_witness :
    trackR.lookup "s1" = some sessR
    ∧ (trackR.get_events "s1" none = sessR.events.map TrainingEvent.to_dict
       ∧ trackR.get_events "s1" (some 15) =
           (sessR.events.filter (fun e => decide ((15 : Int) < e.step))).map
             TrainingEvent.to_dict
       ∧ (sessR.add_events [(evA, 4)]).events =
           sessR.events ++ ([(evA, (4 : ℚ))].map Prod.fst)) :=
  ⟨rfl, get_events_order trackR "s1" sessR 15 [(evA, 4)] rfl⟩

/-- C4: on a Pending session the first `add_event` sets status Running
and `started_at` to that event's timestamp; every subsequent
`add_event` appends its event (previously stored events, hence their
timestamps, are untouched), sets `last_activity` to the call's now,
and never changes `started_at` again. -/
theorem first_event_starts (s : TrainingSession) (e : TrainingEvent) (now : ℚ)
    (rest : List (TrainingEvent × ℚ)) (h : s.status = .PENDING) :
    (s.add_event e now).status = .RUNNING
    ∧ (s.add_event e now).started_at = some e.timestamp
    ∧ (s.add_event e now).events = s.events ++ [e]
    ∧ (s.add_event e now).last_activity = now
    ∧ ((s.add_event e now).add_events rest).started_at = some e.timestamp
    ∧ ((s.add_event e now).add_events rest).events =
        (s.events ++ [e]) ++ rest.map Prod.fst
    ∧ ∀ (s2 : TrainingSession) (e2 : TrainingEvent) (n2 : ℚ),
        (s2.add_event e2 n2).last_activity = n2 := by
  have hst : (s.add_event e now).status = .RUNNING := by
    rw [add_event_status, h]; simp
  have hsa : (s.add_event e now).started_at = some e.timestamp := by
    rw [add_event_started_at, h]; simp
  refine ⟨hst, hsa, add_event_events s e now, add_event_last_activity s e now,
    ?_, ?_, fun s2 e2 n2 => add_event_last_activity s2 e2 n2⟩
  · rw [(add_events_of_running _ rest hst).2, hsa]
  · rw [add_events_events, add_event_events]

/-- Witness for C4 at a concrete Pending session receiving two events. -/
theorem first_event_starts_witness :
    sessP.status = .PENDING
    ∧ ((sessP.add_event evA 1).status = .RUNNING
       ∧ (sessP.add_event evA 1).started_at = some evA.timestamp
       ∧ (sessP.add_event evA 1).events = sessP.events ++ [evA]
       ∧ (sessP.add_event evA 1).last_activity = 1
       ∧ ((sessP.add_event evA 1).add_events [(evB, 2)]).started_at =
           some evA.timestamp
       ∧ ((sessP.add_event evA 1).add_events [(evB, 2)]).events =
           (sessP.events ++ [evA]) ++ ([(evB, (2 : ℚ))].map Prod.fst)
       ∧ ∀ (s2 : TrainingSession) (e2 : TrainingEvent) (n2 : ℚ),
           (s2.add_event e2 n2).last_activity = n2) :=
  ⟨rfl, first_event_starts sessP evA 1 [(evB, 2)] rfl⟩

/-- C5: `add_event`, `complete_session` and `fail_session` on an id not
bound in the registry return false with the registry unchanged; each is
a total function, so no exception is raised. -/
theorem missing_session_noop (t : TrainingTracker) (sid : String) (now : ℚ)
    (step : Int) (loss : ℚ) (epoch : Int) (lr : ℚ)
    (gn tps gmu : Option ℚ) (err : String)
    (h : t.lookup sid = none) :
    t.add_event now sid step loss epoch lr gn tps gmu = (false, t)
    ∧ t.complete_session now sid = (false, t)
    ∧ t.fail_session now sid err = (false, t) := by
  refine ⟨?_, ?_, ?_⟩ <;>
    simp [TrainingTracker.add_event, TrainingTracker.complete_session,
      TrainingTracker.fail_session, h]

/-- Witness for C5 on a registry that does not know the queried id. -/
theorem missing_session_noop_witness :
    trackR.lookup "nonexistent-session" = none
    ∧ (trackR.add_event 5 "nonexistent-session" 10 1 0 0 none none none =
         (false, trackR)
       ∧ trackR.complete_session 5 "nonexistent-session" = (false, trackR)
       ∧ trackR.fail_session 5 "nonexistent-session" "OOM error" =
         (false, trackR)) :=
  ⟨rfl, missing_session_noop trackR "nonexistent-session" 5 10 1 0 0
    none none none "OOM error" rfl⟩

/-- C6: a session is expired exactly when now exceeds `last_activity`
plus the default TTL of 2 hours (7200 s); the sweep — run at the start
of `start_session` and `list_sessions` — hard-deletes precisely the
expired sessions (it is a total filter, so removal never raises), and
after the `list_sessions` sweep an expired session is absent from the
swept map, hence from `get_status`, and the returned snapshots are
exactly those of the surviving sessions. -/
theorem expiry_sweep (t : TrainingTracker) (now : ℚ) (sid : String)
    (s : TrainingSession) (hnd : (t.sessions.map Prod.fst).Nodup)
    (hs : t.lookup sid = some s) (hexp : s.is_expired now = true) :
    (∀ (s2 : TrainingSession) (n2 : ℚ),
        s2.is_expired n2 = true ↔ s2.last_activity + 7200 < n2)
    ∧ (t.cleanup_expired now).sessions =
        t.sessions.filter (fun p => !(p.2.is_expired now))
    ∧ (t.list_sessions now).2.lookup sid = none
    ∧ (t.list_sessions now).2.get_status sid = none
    ∧ (t.list_sessions now).1 =
        (t.cleanup_expired now).sessions.map (fun p => p.2.to_dict) := by
  have hnone :
      List.lookup sid (t.sessions.filter (fun p => !(p.2.is_expired now))) = none := by
    apply lookup_filter_eq_none sid s _ _ hnd hs
    simp [hexp]
  refine ⟨?_, rfl, ?_, ?_, rfl⟩
  · intro s2 n2
    simp only [TrainingSession.is_expired, decide_eq_true_eq]
    norm_num
  · simpa [TrainingTracker.list_sessions, TrainingTracker.cleanup_expired,
      TrainingTracker.lookup] using hnone
  · simp [TrainingTracker.get_status, TrainingTracker.list_sessions,
      TrainingTracker.cleanup_expired, TrainingTracker.lookup, hnone]

/-- Witness for C6: a registry holding one session last active at t=3,
swept at t=10000 (past the 2-hour TTL). -/
theorem expiry_sweep_witness :
    ((trackR.sessions.map Prod.fst).Nodup
      ∧ trackR.lookup "s1" = some sessR
      ∧ sessR.is_expired 10000 = true)
    ∧ ((∀ (s2 : TrainingSession) (n2 : ℚ),
          s2.is_expired n2 = true ↔ s2.last_activity + 7200 < n2)
       ∧ (trackR.cleanup_expired 10000).sessions =
           trackR.sessions.filter (fun p => !(p.2.is_expired 10000))
       ∧ (trackR.list_sessions 10000).2.lookup "s1" = none
       ∧ (trackR.list_sessions 10000).2.get_status "s1" = none
       ∧ (trackR.list_sessions 10000).1 =
           (trackR.cleanup_expired 10000).sessions.map (fun p => p.2.to_dict)) :=
  ⟨⟨by decide, rfl, by norm_num [TrainingSession.is_expired, sessR]⟩,
    expiry_sweep trackR 10000 "s1" sessR (by decide) rfl
      (by norm_num [TrainingSession.is_expired, sessR])⟩

/-- C7: `start_session` sweeps expired sessions first, then
unconditionally binds the id to a fresh Pending session with an empty
event list, silently overwriting any existing binding for that id; the
operation is a total function with no error path, so no AlreadyExists
failure exists. -/
theorem start_overwrites (t : TrainingTracker) (now : ℚ)
    (sid jid mid : String) (ts te : Int) :
    (t.start_session now sid jid mid ts te).1 =
      { session_id := sid, job_id := jid, model_id := mid, total_steps := ts,
        total_epochs := te, created_at := now, started_at := none,
        completed_at := none, status := .PENDING, events := [],
        error_message := none, last_activity := now }
    ∧ (t.start_session now sid jid mid ts te).2.sessions =
        dictInsert sid (t.start_session now sid jid mid ts te).1
          (t.cleanup_expired now).sessions
    ∧ (t.start_session now sid jid mid ts te).2.lookup sid =
        some (t.start_session now sid jid mid ts te).1 :=
  ⟨rfl, rfl, lookup_dictInsert sid _ _⟩

/-- C8: `progress_percent` is 0 when `total_steps` is 0 (no division by
zero) and otherwise min(100, current_step / total_steps * 100); it
never exceeds 100 (clamped even when current_step > total_steps); and,
for sessions satisfying the data model's non-negative `total_steps`, it
is non-decreasing along any sequence of `add_event` calls whose step
values form a non-decreasing chain from the current step. -/
theorem progress_clamped_monotone (s : TrainingSession)
    (ps : List (TrainingEvent × ℚ)) (h0 : 0 ≤ s.total_steps)
    (hc : List.Chain (· ≤ ·) s.current_step (ps.map (fun p => p.1.step))) :
    s.progress_percent =
      (if s.total_steps = 0 then 0
       else min 100 (((s.current_step : ℚ) / (s.total_steps : ℚ)) * 100))
    ∧ s.progress_percent ≤ 100
    ∧ s.progress_percent ≤ (s.add_events ps).progress_percent :=
  ⟨rfl, progress_percent_le_100 s, progress_percent_mono_chain s ps h0 hc⟩

/-- Witness for C8: a fresh session (step 0) receiving events at steps
10 then 30, including a step past `total_steps` being clamped is not
needed here — steps 10, 30 against total 100 show monotonicity. -/
theorem progress_clamped_monotone_witness :
    (0 ≤ sessP.total_steps
      ∧ List.Chain (· ≤ ·) sessP.current_step
          (([(evA, (1 : ℚ)), (evB, (2 : ℚ))]).map (fun p => p.1.step)))
    ∧ (sessP.progress_percent =
        (if sessP.total_steps = 0 then 0
         else min 100 (((sessP.current_step : ℚ) / (sessP.total_steps : ℚ)) * 100))
       ∧ sessP.progress_percent ≤ 100
       ∧ sessP.progress_percent ≤
           (sessP.add_events [(evA, 1), (evB, 2)]).progress_percent) :=
  ⟨⟨by decide, by simp [List.chain_cons, sessP, TrainingSession.current_step, evA, evB]⟩,
    progress_clamped_monotone sessP [(evA, 1), (evB, 2)] (by decide)
      (by simp [List.chain_cons, sessP, TrainingSession.current_step, evA, evB])⟩

/-- An event at step 5, time 0, for the ETA fixtures. -/
def evD : TrainingEvent :=
  { step := 5, loss := 1, epoch := 0, learning_rate := 0, timestamp := 0 }

/-- An event at step 20, time 10, past the session's `total_steps`. -/
def evE : TrainingEvent :=
  { step := 20, loss := 1, epoch := 0, learning_rate := 0, timestamp := 10 }

/-- A session whose current step (20) exceeds its `total_steps` (10). -/
def sessOver : TrainingSession :=
  { session_id := "s3", job_id := "j3", model_id := "m3", total_steps := 10,
    total_epochs := 1, created_at := 0, started_at := some 0,
    status := .RUNNING, events := [evD, evE], last_activity := 10 }

/-- C2, counterexample to the claim as stated: with 2 events and a
positive window step span (the claim's "otherwise" case), the session
whose current step 20 exceeds `total_steps` = 10 gets ETA
(10 − 20) * (10/15) = −20/3 seconds — negative, not
max(0, 10 − 20) * secondsPerStep = 0. -/
theorem eta_negative_counterexample :
    sessOver.estimate_eta = some (-20 / 3 : ℚ)
    ∧ ((-20 / 3 : ℚ) < 0)
    ∧ 2 ≤ sessOver.events.length
    ∧ 0 < evE.step - evD.step := by
  refine ⟨?_, by norm_num, by decide, by decide⟩
  norm_num [TrainingSession.estimate_eta, etaWindow,
    TrainingSession.current_step, sessOver, evD, evE]

/-- C2 (amended): the ETA is absent when fewer than 2 events exist and
absent when the sampling window's step span is ≤ 0; otherwise it equals
(total_steps − current_step) * secondsPerStep, where secondsPerStep is
the window's time span over its step span — the source applies no
max(0, ...) to the remaining steps, so the ETA is negative rather than
0 whenever current_step exceeds total_steps. -/
theorem eta_formula (s : TrainingSession) (first last : TrainingEvent)
    (hlen : 2 ≤ s.events.length)
    (hf : (etaWindow s).head? = some first)
    (hl : (etaWindow s).getLast? = some last) :
    (∀ s2 : TrainingSession, s2.events.length < 2 → s2.estimate_eta = none)
    ∧ (last.step - first.step ≤ 0 → s.estimate_eta = none)
    ∧ (0 < last.step - first.step →
        s.estimate_eta = some (((s.total_steps - s.current_step : Int) : ℚ) *
          ((last.timestamp - first.timestamp) /
            ((last.step - first.step : Int) : ℚ)))) := by
  have h1 : ¬ s.events.length < 2 := by omega
  have h2 : ¬ (etaWindow s).length < 2 := by
    rw [etaWindow_length]; omega
  refine ⟨fun s2 h => by simp [TrainingSession.estimate_eta, h], ?_, ?_⟩
  · intro hle
    unfold TrainingSession.estimate_eta
    rw [if_neg h1, if_neg h2, hf, hl]
    dsimp only
    rw [if_pos hle]
  · intro hpos
    unfold TrainingSession.estimate_eta
    rw [if_neg h1, if_neg h2, hf, hl]
    dsimp only
    rw [if_neg (not_le.mpr hpos)]

/-- Witness for C2 (amended) on the concrete two-event session. -/
theorem eta_formula_witness :
    (2 ≤ sessOver.events.length
      ∧ (etaWindow sessOver).head? = some evD
      ∧ (etaWindow sessOver).getLast? = some evE)
    ∧ ((∀ s2 : TrainingSession, s2.events.length < 2 → s2.estimate_eta = none)
       ∧ (evE.step - evD.step ≤ 0 → sessOver.estimate_eta = none)
       ∧ (0 < evE.step - evD.step →
           sessOver.estimate_eta =
             some (((sessOver.total_steps - sessOver.current_step : Int) : ℚ) *
               ((evE.timestamp - evD.timestamp) /
                 ((evE.step - evD.step : Int) : ℚ))))) :=
  ⟨⟨by decide, rfl, rfl⟩, eta_formula sessOver evD evE (by decide) rfl rfl⟩

/-- A concrete Failed (terminal) session with no events. -/
def sessF : TrainingSession :=
  { session_id := "s4", job_id := "j4", model_id := "m4", total_steps := 100,
    total_epochs := 1, created_at := 0, completed_at := some 5,
    status := .FAILED, error_message := some "boom", last_activity := 5 }

/-- A registry holding the failed session `sessF`. -/
def trackF : TrainingTracker := ⟨[("s4", sessF)]⟩

/-- C9: on the first poll iteration whose fetched snapshot carries a
terminal status string, the feed emits (at most a preceding data
notification for freshly observed events, and) exactly one terminal
`complete` notification carrying that full snapshot, and the stream
ends: the output does not depend on `rest`, i.e. no further poll
iteration and no further registry read happens — even when no new event
accompanied the terminal status. -/
theorem stream_terminal (sid : String) (t : TrainingTracker)
    (rest : List TrainingTracker) (ls : Int) (st : StatusDict)
    (h1 : t.get_status sid = some st)
    (h2 : st.status = "completed" ∨ st.status = "failed") :
    event_generator sid ls (t :: rest) =
      (if (t.get_events sid (some ls)).isEmpty then []
       else [SSEMessage.data_note st]) ++ [SSEMessage.complete_note st]
    ∧ (List.filter (fun m => match m with
        | SSEMessage.complete_note _ => true
        | _ => false) (event_generator sid ls (t :: rest))).length = 1 := by
  have hterm : (st.status == "completed" || st.status == "failed") = true := by
    rcases h2 with h | h <;> simp [h]
  have hmain : event_generator sid ls (t :: rest) =
      (if (t.get_events sid (some ls)).isEmpty then []
       else [SSEMessage.data_note st]) ++ [SSEMessage.complete_note st] := by
    unfold event_generator
    rw [h1]
    dsimp only
    rw [if_pos hterm]
  refine ⟨hmain, ?_⟩
  rw [hmain]
  by_cases hemp : (t.get_events sid (some ls)).isEmpty = true <;>
    simp [hemp, List.filter_append]

/-- Witness for C9: a subscription polling a registry whose session has
already been failed externally; no new event accompanies the terminal
status, and the second (never reached) poll iteration is irrelevant. -/
theorem stream_terminal_witness :
    (trackF.get_status "s4" = some sessF.to_dict
      ∧ (sessF.to_dict.status = "completed" ∨ sessF.to_dict.status = "failed"))
    ∧ (event_generator "s4" 0 [trackF, trackF] =
        (if (trackF.get_events "s4" (some 0)).isEmpty then []
         else [SSEMessage.data_note sessF.to_dict]) ++
          [SSEMessage.complete_note sessF.to_dict]
       ∧ (List.filter (fun m => match m with
           | SSEMessage.complete_note _ => true
           | _ => false) (event_generator "s4" 0 [trackF, trackF])).length = 1) :=
  ⟨⟨rfl, Or.inr rfl⟩,
    stream_terminal "s4" trackF [trackF] 0 sessF.to_dict rfl (Or.inr rfl)⟩

/-- C10: the query operations `get_status`, `get_events` and
`get_latest` are pure reads of the registry — their source bodies
assign no field, append nothing, and never call the expiry sweep — so a
session whose TTL has already elapsed is still returned in full by all
three queries, and only a sweeping call such as `list_sessions` (or
`start_session`) removes it. -/
theorem queries_pure (t : TrainingTracker) (sid : String)
    (s : TrainingSession) (now : ℚ) (k : Int)
    (hnd : (t.sessions.map Prod.fst).Nodup)
    (hs : t.lookup sid = some s) (hexp : s.is_expired now = true) :
    t.get_status sid = some s.to_dict
    ∧ t.get_events sid none = s.events.map TrainingEvent.to_dict
    ∧ t.get_events sid (some k) =
        (s.events.filter (fun e => decide (k < e.step))).map TrainingEvent.to_dict
    ∧ t.get_latest sid = s.events.getLast?.map TrainingEvent.to_dict
    ∧ (t.list_sessions now).2.get_status sid = none := by
  have hnone :
      List.lookup sid (t.sessions.filter (fun p => !(p.2.is_expired now))) = none := by
    apply lookup_filter_eq_none sid s _ _ hnd hs
    simp [hexp]
  refine ⟨?_, ?_, ?_, ?_, ?_⟩
  · simp [TrainingTracker.get_status, hs]
  · simp [TrainingTracker.get_events, hs]
  · simp [TrainingTracker.get_events, hs]
  · simp [TrainingTracker.get_latest, hs]
  · simp [TrainingTracker.get_status, TrainingTracker.list_sessions,
      TrainingTracker.cleanup_expired, TrainingTracker.lookup, hnone]

/-- Witness for C10: the expired session of the C6 scenario is still
fully visible to the three queries before any sweep runs. -/
theorem queries_pure_witness :
    ((trackR.sessions.map Prod.fst).Nodup
      ∧ trackR.lookup "s1" = some sessR
      ∧ sessR.is_expired 10000 = true)
    ∧ (trackR.get_status "s1" = some sessR.to_dict
       ∧ trackR.get_events "s1" none = sessR.events.map TrainingEvent.to_dict
       ∧ trackR.get_events "s1" (some 15) =
           (sessR.events.filter (fun e => decide ((15 : Int) < e.step))).map
             TrainingEvent.to_dict
       ∧ trackR.get_latest "s1" = sessR.events.getLast?.map TrainingEvent.to_dict
       ∧ (trackR.list_sessions 10000).2.get_status "s1" = none) :=
  ⟨⟨by decide, rfl, by norm_num [TrainingSession.is_expired, sessR]⟩,
    queries_pure trackR "s1" sessR 10000 15 (by decide) rfl
      (by norm_num [TrainingSession.is_expired, sessR])⟩
